import Mathlib

set_option maxRecDepth 100000

/-!
Verification of the natural-language specification of the `workflow-tools`
rules tooling (four Python components: section extractor, bundler, differ,
validator) against a shallow Lean embedding of the source.

Strings are modelled as `List Char` (the Python sources operate on `str`;
all inputs exercised by the claims are ASCII).  Regular-expression based
scans in the source are modelled by explicit left-to-right scanning
functions that implement the same leftmost, non-overlapping match
semantics as the `re` calls they embed.  Fallible operations (Python
exceptions) are modelled with `Option`.
-/

/-- Characters treated as whitespace by Python's `str.strip()` / `str.split()`
(ASCII fragment: space, newline, tab, carriage return, vertical tab, form feed). -/
def isWS (c : Char) : Bool :=
  c == ' ' || c == '\n' || c == '\t' || c == '\r' || c == '\x0b' || c == '\x0c'

/-- Python `str.strip()`: drop leading and trailing whitespace. -/
def pyStrip (l : List Char) : List Char :=
  ((l.dropWhile isWS).reverse.dropWhile isWS).reverse

/-- `listPref p l` is true iff `p` is an initial segment of `l`
(the anchored literal-match step of every regex scan below). -/
def listPref : List Char → List Char → Bool
  | [], _ => true
  | _ :: _, [] => false
  | a :: as, b :: bs => a == b && listPref as bs

/-- Index of the first occurrence of pattern `p` in `t` (leftmost match of a
literal pattern, as found by `re.search` on a literal regex). -/
def firstOcc (p : List Char) : List Char → Option Nat
  | [] => if listPref p [] then some 0 else none
  | c :: rest =>
    if listPref p (c :: rest) then some 0 else (firstOcc p rest).map (· + 1)

/-- Python `p in t` substring test. -/
def containsS (t p : List Char) : Bool := (firstOcc p t).isSome

/-- The opening extraction marker `<!-- EXTRACT:<name>:start -->` built by
`RuleExtractor.extract_section` (extract-rule-section.py line 40). -/
def startMarker (name : List Char) : List Char :=
  "<!-- EXTRACT:".data ++ name ++ ":start -->".data

/-- The closing extraction marker `<!-- EXTRACT:<name>:end -->`. -/
def endMarker (name : List Char) : List Char :=
  "<!-- EXTRACT:".data ++ name ++ ":end -->".data

/-- Marker branch of `extract_section` (extract-rule-section.py lines 39-43):
`re.search(rf'<!-- EXTRACT:{name}:start -->(.*?)<!-- EXTRACT:{name}:end -->', content, re.DOTALL)`.
The leftmost match of this regex starts at the first occurrence of the start
marker that is followed by an occurrence of the end marker; since an end
marker occurring after a later start marker also occurs after every earlier
one, that is simply the first start-marker occurrence, and the non-greedy
group ends at the first end-marker occurrence after it.  The group is
returned `.strip()`-ed.  (`name` is interpolated verbatim into the regex;
the model treats it as a literal, faithful for the regex-metacharacter-free
section names the tools use.) -/
def markerExtract (name doc : List Char) : Option (List Char) :=
  match firstOcc (startMarker name) doc with
  | none => none
  | some i =>
    let r := doc.drop (i + (startMarker name).length)
    match firstOcc (endMarker name) r with
    | none => none
    | some j => some (pyStrip (r.take j))

/-- `section_name.upper().replace('-', '_')` (extract-rule-section.py line 46).
`Char.toUpper` agrees with Python `str.upper` on ASCII, and `toUpper '-' = '-'`,
so the two passes fuse into one map. -/
def upperName (name : List Char) : List Char :=
  name.map (fun c => if c == '-' then '_' else c.toUpper)

/-- The heading line `## <NAME>\n` searched for by the fallback branch. -/
def headingOf (upper : List Char) : List Char :=
  "## ".data ++ upper ++ ['\n']

/-- Scan for the first occurrence of the heading line `h` that sits at the
start of a line (the `^`-anchored `re.MULTILINE` search of
extract-rule-section.py line 47-48); `atStart` records whether the current
position is a line start.  Returns the text following the heading. -/
def headingRest (h : List Char) : Bool → List Char → Option (List Char)
  | _, [] => none
  | atStart, c :: rest =>
    if atStart && listPref h (c :: rest) then some ((c :: rest).drop h.length)
    else headingRest h (c == '\n') rest

/-- The non-greedy capture `(.*?)(?=^##|\Z)` (with MULTILINE and DOTALL):
take characters until the first line start that is followed by `##`
(note: a `###` sub-heading line also starts with `##`, so it stops the
capture too), or the end of the document. -/
def capUpto : Bool → List Char → List Char
  | _, [] => []
  | atStart, c :: rest =>
    if atStart && listPref ['#', '#'] (c :: rest) then []
    else c :: capUpto (c == '\n') rest

/-- Heading-fallback branch of `extract_section`
(extract-rule-section.py lines 45-50). -/
def headingExtract (upper doc : List Char) : Option (List Char) :=
  match headingRest (headingOf upper) true doc with
  | none => none
  | some r => some (pyStrip (capUpto true r))

/-- `RuleExtractor.extract_section` (extract-rule-section.py lines 37-52):
marker pair first, then the `## <NAME_UPPERCASED_WITH_UNDERSCORES>` heading
fallback, else `None`. -/
def extract_section (name doc : List Char) : Option (List Char) :=
  match markerExtract name doc with
  | some r => some r
  | none => headingExtract (upperName name) doc

/-! ## Bundler: task analysis and section selection (rule-bundler.py) -/

/-- Python `str.lower()` (ASCII fragment). -/
def lowerL (l : List Char) : List Char := l.map Char.toLower

/-- `any(p in task_lower for p in patterns)`. -/
def anyIn (pats : List (List Char)) (t : List Char) : Bool :=
  pats.any (fun p => containsS t p)

/-- Action classification of `RuleBundler._analyze_task`
(rule-bundler.py lines 72-80): first matching action wins, in the fixed
order review > generate > fix > learn, default `unknown`. -/
def actionOf (tl : List Char) : List Char :=
  if anyIn ["review".data, "check".data, "validate".data, "audit".data] tl then "review".data
  else if anyIn ["generate".data, "create".data, "write".data, "implement".data] tl then "generate".data
  else if anyIn ["fix".data, "repair".data, "correct".data, "update".data] tl then "fix".data
  else if anyIn ["learn".data, "understand".data, "explain".data] tl then "learn".data
  else "unknown".data

/-- `language_patterns` table (rule-bundler.py lines 83-91), in dict insertion
order. -/
def langTable : List (List Char × List (List Char)) :=
  [("typescript".data, ["typescript".data, "ts".data, "tsx".data]),
   ("javascript".data, ["javascript".data, "js".data, "jsx".data]),
   ("python".data, ["python".data, "py".data]),
   ("csharp".data, ["c#".data, "csharp".data, "dotnet".data, ".net".data]),
   ("go".data, ["go".data, "golang".data]),
   ("java".data, ["java".data]),
   ("ruby".data, ["ruby".data, "rb".data])]

/-- `category_patterns` table (rule-bundler.py lines 98-103). -/
def catTable : List (List Char × List (List Char)) :=
  [("test-naming".data, ["test".data, "testing".data, "spec".data, "unit test".data]),
   ("code-quality".data, ["quality".data, "clean code".data, "refactor".data, "code review".data]),
   ("security".data, ["security".data, "secure".data, "vulnerability".data, "owasp".data]),
   ("git-workflow".data, ["git".data, "commit".data, "branch".data, "pull request".data, "pr".data])]

/-- Entries of the table whose pattern list has a substring hit in the task
(the detection loops of `_analyze_task`, lines 93-95 and 105-107). -/
def detectBy (table : List (List Char × List (List Char))) (tl : List Char) : List (List Char) :=
  (table.filter (fun p => anyIn p.2 tl)).map Prod.fst

/-- `\w` word characters of the keyword regex (ASCII fragment of Python `\w`). -/
def isW (c : Char) : Bool := c.isAlpha || c.isDigit || c == '_'

/-- Maximal runs of word characters (`cur` accumulates the current run in
reverse); `re.findall(r'\b\w{4,}\b', t)` returns exactly the maximal runs of
length at least 4. -/
def wordRunsAux : List Char → List Char → List (List Char)
  | cur, [] => if cur.isEmpty then [] else [cur.reverse]
  | cur, c :: rest =>
    if isW c then wordRunsAux (c :: cur) rest
    else if cur.isEmpty then wordRunsAux [] rest
    else cur.reverse :: wordRunsAux [] rest

/-- Keyword extraction of `_analyze_task` (rule-bundler.py lines 110-112):
word runs of length >= 4, minus the fixed stop list. -/
def keywordsOf (tl : List Char) : List (List Char) :=
  (wordRunsAux [] tl).filter
    (fun w => 4 ≤ w.length &&
      !(["that".data, "this".data, "with".data, "from".data, "have".data].contains w))

/-- The context record built by `RuleBundler._analyze_task`. -/
structure TaskContext where
  action : List Char
  languages : List (List Char)
  categories : List (List Char)
  keywords : List (List Char)
deriving DecidableEq

/-- `RuleBundler._analyze_task` (rule-bundler.py lines 61-114). -/
def analyze_task (task : List Char) : TaskContext :=
  let tl := lowerL task
  ⟨actionOf tl, detectBy langTable tl, detectBy catTable tl, keywordsOf tl⟩

/-- `RuleBundler._determine_sections_for_task` (rule-bundler.py lines 151-166):
section lists chosen by direct substring tests on the lowered task. -/
def determine_sections_for_task (task : List Char) : List (List Char) :=
  let tl := lowerL task
  if containsS tl "review".data || containsS tl "check".data then
    ["RULE_SUMMARY".data, "MUST_NOT_DO".data, "antipatterns".data]
  else if containsS tl "generate".data || containsS tl "create".data then
    ["RULE_SUMMARY".data, "MUST_FOLLOW".data, "requirements".data, "good_examples".data]
  else if containsS tl "fix".data then
    ["RULE_SUMMARY".data, "antipatterns".data, "good_examples".data]
  else if containsS tl "learn".data || containsS tl "explain".data then
    ["RULE_SUMMARY".data, "CONTEXT_AND_RATIONALE".data]
  else
    ["RULE_SUMMARY".data, "requirements".data, "antipatterns".data]

/-! ## A model of the JSON values the bundler and differ manipulate.

Python dicts are modelled as insertion-ordered association structures
(`JObj`), faithful to CPython 3.7+ dict ordering; lists as `JList`.
The mutual presentation (instead of a nested `List`) keeps all recursions
structural so that every function below reduces inside `decide`/`rfl`. -/

mutual
inductive Json where
  | null : Json
  | bool : Bool → Json
  | str : List Char → Json
  | num : Int → Json
  | arr : JList → Json
  | obj : JObj → Json
inductive JList where
  | nil : JList
  | cons : Json → JList → JList
inductive JObj where
  | nil : JObj
  | cons : List Char → Json → JObj → JObj
end

/-- `d[k]` lookup (first binding; a `JObj` built by the dict operations below
has unique keys, like a Python dict). -/
def JObj.lookup : JObj → List Char → Option Json
  | .nil, _ => none
  | .cons k v rest, key => if k = key then some v else rest.lookup key

/-- `k in d`. -/
def JObj.hasK (d : JObj) (key : List Char) : Bool := (d.lookup key).isSome

/-- `d[k] = v`: replace the value in place if the key exists (Python dicts
keep the original position), else append the new binding at the end. -/
def JObj.set : JObj → List Char → Json → JObj
  | .nil, key, v => .cons key v .nil
  | .cons k w rest, key, v =>
    if k = key then .cons k v rest else .cons k w (rest.set key v)

/-- `del d[k]`. -/
def JObj.del : JObj → List Char → JObj
  | .nil, _ => .nil
  | .cons k w rest, key => if k = key then rest else .cons k w (rest.del key)

/-- `list(d.keys())`. -/
def JObj.keys : JObj → List (List Char)
  | .nil => []
  | .cons k _ rest => k :: rest.keys

/-- `len` of a JSON list. -/
def JList.length : JList → Nat
  | .nil => 0
  | .cons _ rest => rest.length + 1

/-- `l[:n]` slice of a JSON list. -/
def JList.take : Nat → JList → JList
  | 0, _ => .nil
  | _, .nil => .nil
  | n + 1, .cons x rest => .cons x (JList.take n rest)

mutual
/-- Structural equality of JSON values, modelling Python `==`/`!=` on the
parsed data. -/
def jeq : Json → Json → Bool
  | .null, .null => true
  | .bool a, .bool b => a = b
  | .str a, .str b => a = b
  | .num a, .num b => a = b
  | .arr a, .arr b => jleq a b
  | .obj a, .obj b => joeq a b
  | _, _ => false
def jleq : JList → JList → Bool
  | .nil, .nil => true
  | .cons a as, .cons b bs => jeq a b && jleq as bs
  | _, _ => false
def joeq : JObj → JObj → Bool
  | .nil, .nil => true
  | .cons k v rest, .cons k2 v2 rest2 => k = k2 && jeq v v2 && joeq rest rest2
  | _, _ => false
end

/-- Decimal digits of a natural number (fuel-based so it reduces in the
kernel; `fuel = n + 1` always suffices). -/
def natDigitsAux : Nat → Nat → List Char
  | 0, _ => []
  | fuel + 1, n =>
    if n < 10 then [Char.ofNat (48 + n)]
    else natDigitsAux fuel (n / 10) ++ [Char.ofNat (48 + n % 10)]

/-- Python `str(n)` for an integer. -/
def intRepr (n : Int) : List Char :=
  if n < 0 then '-' :: natDigitsAux (n.natAbs + 1) n.natAbs
  else natDigitsAux (n.natAbs + 1) n.natAbs

/-- One hex digit (lower case, as produced by `json.dumps`). -/
def hexDig (n : Nat) : Char :=
  if n < 10 then Char.ofNat (48 + n) else Char.ofNat (87 + n)

/-- `\uXXXX` escape. -/
def uEsc (n : Nat) : List Char :=
  ['\\', 'u', hexDig (n / 4096 % 16), hexDig (n / 256 % 16), hexDig (n / 16 % 16), hexDig (n % 16)]

/-- Escaping of one character in a `json.dumps` string (default
`ensure_ascii=True`): the two-character escapes for quote, backslash and
the common control characters, `\uXXXX` for other control and non-ASCII
characters (surrogate pairs above U+FFFF). -/
def escOne (c : Char) : List Char :=
  if c == '"' then ['\\', '"']
  else if c == '\\' then ['\\', '\\']
  else if c == '\n' then ['\\', 'n']
  else if c == '\t' then ['\\', 't']
  else if c == '\r' then ['\\', 'r']
  else if c == '\x08' then ['\\', 'b']
  else if c == '\x0c' then ['\\', 'f']
  else if c.toNat < 32 then uEsc c.toNat
  else if c.toNat < 127 then [c]
  else if c.toNat < 65536 then uEsc c.toNat
  else uEsc (55296 + (c.toNat - 65536) / 1024) ++ uEsc (56320 + (c.toNat - 65536) % 1024)

/-- A `json.dumps` string literal. -/
def quoteStr (s : List Char) : List Char :=
  '"' :: (s.foldr (fun c acc => escOne c ++ acc) ['"'])

mutual
/-- `json.dumps(v)` with the default separators `', '` and `': '`
(rule-bundler.py `_estimate_tokens`, line 220). -/
def dumpsJ : Json → List Char
  | .null => "null".data
  | .bool b => if b then "true".data else "false".data
  | .str s => quoteStr s
  | .num n => intRepr n
  | .arr l => '[' :: (dumpsL l ++ [']'])
  | .obj o => '\x7b' :: (dumpsO o ++ ['\x7d'])
def dumpsL : JList → List Char
  | .nil => []
  | .cons x .nil => dumpsJ x
  | .cons x (.cons y rest) => dumpsJ x ++ ", ".data ++ dumpsL (.cons y rest)
def dumpsO : JObj → List Char
  | .nil => []
  | .cons k v .nil => quoteStr k ++ ": ".data ++ dumpsJ v
  | .cons k v (.cons k2 v2 rest) =>
    quoteStr k ++ ": ".data ++ dumpsJ v ++ ", ".data ++ dumpsO (.cons k2 v2 rest)
end

/-- `RuleBundler._estimate_tokens` (rule-bundler.py lines 217-221):
`len(json.dumps(bundle)) // 4`. -/
def estimate_tokens (b : Json) : Nat := (dumpsJ b).length / 4

/-- Navigate `bundle['rules'][rule_id]['sections']` (the access path of every
mutation in `RuleBundler.optimize_bundle`); `none` models the exception
Python would raise when the path is missing or not a dict. -/
def sectionsOf (b : Json) (rid : List Char) : Option JObj :=
  match b with
  | .obj bf =>
    match bf.lookup "rules".data with
    | some (.obj rf) =>
      match rf.lookup rid with
      | some (.obj rr) =>
        match rr.lookup "sections".data with
        | some (.obj secs) => some secs
        | _ => none
      | _ => none
    | _ => none
  | _ => none

/-- Write back through the same path (the value-level effect of mutating the
shared nested dict `bundle['rules'][rule_id]['sections']`). -/
def setSectionsOf (b : Json) (rid : List Char) (secs : JObj) : Option Json :=
  match b with
  | .obj bf =>
    match bf.lookup "rules".data with
    | some (.obj rf) =>
      match rf.lookup rid with
      | some (.obj rr) =>
        some (.obj (bf.set "rules".data (.obj (rf.set rid
          (.obj (rr.set "sections".data (.obj secs)))))))
      | _ => none
    | _ => none
  | _ => none

/-- One deletion stage of `optimize_bundle` (rule-bundler.py lines 291-305):
for each rule in insertion order, delete section `key` if present, re-estimate
the whole bundle and return early (`true`) as soon as it fits `maxT`. -/
def stageDel (key : List Char) (maxT : Int) : Json → List (List Char) → Option (Json × Bool)
  | b, [] => some (b, false)
  | b, rid :: rest =>
    match sectionsOf b rid with
    | none => none
    | some secs =>
      if secs.hasK key then
        match setSectionsOf b rid (secs.del key) with
        | none => none
        | some b2 =>
          if (estimate_tokens b2 : Int) ≤ maxT then some (b2, true)
          else stageDel key maxT b2 rest
      else stageDel key maxT b rest

/-- `len(v)` for the section values sliced in stage 3 (Python `len` works on
lists, strings and dicts; slicing `[:3]` only on sequences). -/
def lenVal : Json → Option Nat
  | .arr l => some l.length
  | .str s => some s.length
  | .obj o => some o.keys.length
  | _ => none

/-- `v[:3]` for a section value (list or string; anything else raises). -/
def slice3 : Json → Option Json
  | .arr l => some (.arr (JList.take 3 l))
  | .str s => some (.str (s.take 3))
  | _ => none

/-- Stage 3 body (rule-bundler.py lines 308-318): keep only `summary` plus
the first 3 antipatterns (when present and non-empty) or else the first 3
requirements. -/
def collapseSections (secs : JObj) : Option JObj :=
  let n1 : JObj :=
    match secs.lookup "summary".data with
    | some v => JObj.set .nil "summary".data v
    | none => .nil
  match secs.lookup "antipatterns".data with
  | some av =>
    match lenVal av with
    | none => none
    | some l =>
      if 0 < l then (slice3 av).map (fun v => n1.set "antipatterns".data v)
      else
        match secs.lookup "requirements".data with
        | some rv => (slice3 rv).map (fun v => n1.set "requirements".data v)
        | none => some n1
  | none =>
    match secs.lookup "requirements".data with
    | some rv => (slice3 rv).map (fun v => n1.set "requirements".data v)
    | none => some n1

/-- Stage 3 loop over every rule (no early exit, no budget check). -/
def stage3 : Json → List (List Char) → Option Json
  | b, [] => some b
  | b, rid :: rest =>
    match sectionsOf b rid with
    | none => none
    | some secs =>
      match collapseSections secs with
      | none => none
      | some s2 =>
        match setSectionsOf b rid s2 with
        | none => none
        | some b2 => stage3 b2 rest

/-- The bundle value produced by `RuleBundler.optimize_bundle`
(rule-bundler.py lines 281-320): the original when already within budget,
otherwise the staged trim (drop `good_examples`, then `context`, then
collapse every rule to summary plus at most 3 antipatterns or requirements). -/
def optimize_core (b : Json) (maxT : Int) : Option Json :=
  if (estimate_tokens b : Int) ≤ maxT then some b
  else
    match b with
    | .obj bf =>
      match bf.lookup "rules".data with
      | some (.obj rf) =>
        let rids := rf.keys
        match stageDel "good_examples".data maxT b rids with
        | none => none
        | some (b1, true) => some b1
        | some (b1, false) =>
          match stageDel "context".data maxT b1 rids with
          | none => none
          | some (b2, true) => some b2
          | some (b2, false) => stage3 b2 rids
      | _ => none
    | _ => none

/-- `RuleBundler.optimize_bundle`, with the caller-visible effect made
explicit: the result pair is (returned bundle, the caller's bundle after the
call).  `optimized = bundle.copy()` is a SHALLOW copy (only the top-level
dict is new); every subsequent `del` and reassignment goes through the shared
`['rules'][rule_id]` / `['sections']` dicts, so whenever trimming happens the
caller's bundle ends up value-equal to the returned bundle; when the bundle
is already within budget, `bundle` itself is returned and nothing is touched.
In both cases the post-call caller view equals the returned value. -/
def optimize_bundle (b : Json) (maxT : Int) : Option (Json × Json) :=
  (optimize_core b maxT).map (fun x => (x, x))

/-! ## `RuleBundler._build_bundle` section dispatch (rule-bundler.py 168-215) -/

/-- The values the `RuleExtractor` methods return for one rule file, as the
per-rule section loop of `_build_bundle` consumes them (the loop treats the
extractor as an oracle: only the dispatch on section names is at issue in
the claims about it). -/
structure Extracted where
  summary : Option (List Char)
  requirements : JList
  antipatterns : JList
  goodExamples : JList
  context : Option (List Char)

/-- A `None`-or-string extraction result as stored in the bundle JSON. -/
def optStr : Option (List Char) → Json
  | none => .null
  | some s => .str s

/-- The `sections` dict built for one rule by `_build_bundle`
(rule-bundler.py lines 198-211): dispatch on one requested section name;
unrecognized names fall through silently; `good_examples` keeps only the
first extracted example (`examples[:1] if examples else []`, which equals
`examples[:1]` in both cases). -/
def sectionStep (ex : Extracted) (acc : JObj) (sec : List Char) : JObj :=
  if sec = "RULE_SUMMARY".data then acc.set "summary".data (optStr ex.summary)
  else if sec = "requirements".data ∨ sec = "MUST_FOLLOW".data then
    acc.set "requirements".data (.arr ex.requirements)
  else if sec = "antipatterns".data ∨ sec = "MUST_NOT_DO".data then
    acc.set "antipatterns".data (.arr ex.antipatterns)
  else if sec = "good_examples".data then
    acc.set "good_examples".data (.arr (JList.take 1 ex.goodExamples))
  else if sec = "CONTEXT_AND_RATIONALE".data then
    acc.set "context".data (optStr ex.context)
  else acc

/-- The `sections` dict built for one rule: the fold of `sectionStep` over the
requested names. -/
def buildRuleSections (ex : Extracted) (names : List (List Char)) : JObj :=
  names.foldl (sectionStep ex) .nil

/-- The five section keys `_build_bundle` can ever create. -/
def allowedSectionKeys : List (List Char) :=
  ["summary".data, "requirements".data, "antipatterns".data, "good_examples".data, "context".data]

/-- The requested-section names `_build_bundle` recognizes. -/
def recognizedName (s : List Char) : Bool :=
  s = "RULE_SUMMARY".data || s = "requirements".data || s = "MUST_FOLLOW".data ||
    s = "antipatterns".data || s = "MUST_NOT_DO".data || s = "good_examples".data ||
    s = "CONTEXT_AND_RATIONALE".data

/-- Bool check: the `good_examples` entry, when present, is a list with at
most one element. -/
def goodExAtMostOne (secs : JObj) : Bool :=
  match secs.lookup "good_examples".data with
  | none => true
  | some (.arr l) => l.length ≤ 1
  | some _ => false

/-! ## Validator (validate-rule.py): ID sequencing and auto-fix -/

/-- ASCII digit test (`\d`). -/
def isDig (c : Char) : Bool := '0' ≤ c && c ≤ '9'

/-- Numeric value of a digit run. -/
def digitsVal (ds : List Char) : Nat :=
  ds.foldl (fun a c => a * 10 + (c.toNat - 48)) 0

/-- Fuel-based scan for `re.findall(r'\*\*\[(TAG\d+)\]\*\*', content)`
(validate-rule.py lines 167 and 171), returning the numeric parts.
`open4` is the literal `**[TAG`; a match needs a non-empty maximal digit run
followed by `]**`; matches are leftmost and non-overlapping (the scan resumes
after the consumed match).  Fuel `content.length` suffices since every step
consumes at least one character. -/
def scanIdsF (opn : List Char) : Nat → List Char → List Nat
  | 0, _ => []
  | _, [] => []
  | fuel + 1, c :: cs =>
    if listPref opn (c :: cs) then
      let after := (c :: cs).drop opn.length
      let ds := after.takeWhile isDig
      let rest := after.dropWhile isDig
      if !ds.isEmpty && listPref "]**".data rest then
        digitsVal ds :: scanIdsF opn fuel (rest.drop 3)
      else scanIdsF opn fuel cs
    else scanIdsF opn fuel cs

/-- All `**[REQnnn]**` numbers in a document. -/
def reqNums (doc : List Char) : List Nat := scanIdsF "**[REQ".data doc.length doc

/-- All `**[ANTnnn]**` numbers in a document. -/
def antNums (doc : List Char) : List Nat := scanIdsF "**[ANT".data doc.length doc

/-- Ascending insertion (model of Python `list.sort()` on ints). -/
def insertNat (n : Nat) : List Nat → List Nat
  | [] => [n]
  | m :: rest => if n ≤ m then n :: m :: rest else m :: insertNat n rest

/-- Ascending sort. -/
def sortNat (l : List Nat) : List Nat := l.foldr insertNat []

/-- The enumerate-and-compare loop of `_check_sequential_ids`
(validate-rule.py lines 195-198): first index `i` (counting from `start`)
where the sorted number differs, together with the number found there. -/
def seqGap : List Nat → Nat → Option (Nat × Nat)
  | [], _ => none
  | n :: rest, i => if n ≠ i then some (i, n) else seqGap rest (i + 1)

/-- Python `f'{n:03d}'`: zero-pad to (at least) three digits. -/
def fmt3 (n : Nat) : List Char :=
  let ds := natDigitsAux (n + 1) n
  List.replicate (3 - ds.length) '0' ++ ds

/-- The warning string of `_check_sequential_ids` (validate-rule.py line 197). -/
def seqWarning (pfx : List Char) (i n : Nat) : List Char :=
  pfx ++ " IDs are not sequential. Expected ".data ++ pfx ++ fmt3 i ++
    ", found ".data ++ pfx ++ fmt3 n

/-- `RuleValidator._check_sequential_ids` (validate-rule.py lines 183-198):
sort the extracted numbers, warn once at the first mismatch against 1..N and
`break` (at most one warning per ID family). -/
def check_sequential_ids (nums : List Nat) (pfx : List Char) : List (List Char) :=
  if nums.isEmpty then []
  else
    match seqGap (sortNat nums) 1 with
    | none => []
    | some (i, n) => [seqWarning pfx i n]

/-- The sequencing warnings emitted by `_validate_id_formats`
(validate-rule.py lines 164-172): the REQ family followed by the independent
ANT family. -/
def idSequencingWarnings (doc : List Char) : List (List Char) :=
  check_sequential_ids (reqNums doc) "REQ".data ++ check_sequential_ids (antNums doc) "ANT".data

/-! ### `fix_common_issues` (validate-rule.py lines 200-229) -/

/-- Match `**[TAGd]**` (exactly one digit) at the head: returns the digit and
the remainder after the whole match. -/
def matchShortId (tag : List Char) (l : List Char) : Option (Char × List Char) :=
  if listPref ("**[".data ++ tag) l then
    match l.drop (3 + tag.length) with
    | d :: rest =>
      if isDig d && listPref "]**".data rest then some (d, rest.drop 3) else none
    | [] => none
  else none

/-- Match `**[TAGdd]**` (exactly two digits) at the head. -/
def matchTwoId (tag : List Char) (l : List Char) : Option (Char × Char × List Char) :=
  if listPref ("**[".data ++ tag) l then
    match l.drop (3 + tag.length) with
    | d1 :: d2 :: rest =>
      if isDig d1 && isDig d2 && listPref "]**".data rest then
        some (d1, d2, rest.drop 3)
      else none
    | _ => none
  else none

/-- `re.sub(r'\*\*\[TAG(\d)\]\*\*', r'**[TAG00\1]**', content)`
(validate-rule.py lines 206 and 208): leftmost non-overlapping replacement,
fuel-based. -/
def subShortF (tag : List Char) : Nat → List Char → List Char
  | 0, l => l
  | _, [] => []
  | fuel + 1, c :: cs =>
    match matchShortId tag (c :: cs) with
    | some (d, rest) =>
      "**[".data ++ tag ++ ['0', '0', d] ++ "]**".data ++ subShortF tag fuel rest
    | none => c :: subShortF tag fuel cs

/-- `re.sub(r'\*\*\[TAG(\d\d)\]\*\*', r'**[TAG0\1]**', content)`
(validate-rule.py lines 207 and 209). -/
def subTwoF (tag : List Char) : Nat → List Char → List Char
  | 0, l => l
  | _, [] => []
  | fuel + 1, c :: cs =>
    match matchTwoId tag (c :: cs) with
    | some (d1, d2, rest) =>
      "**[".data ++ tag ++ ['0', d1, d2] ++ "]**".data ++ subTwoF tag fuel rest
    | none => c :: subTwoF tag fuel cs

/-- Match `### Word Example d` at the head (the example-heading patterns of
validate-rule.py lines 212-213), returning the digit and the remainder. -/
def matchExHead (word : List Char) (l : List Char) : Option (Char × List Char) :=
  let pre := "### ".data ++ word ++ " Example ".data
  if listPref pre l then
    match l.drop pre.length with
    | d :: rest => if isDig d then some (d, rest) else none
    | [] => none
  else none

/-- `re.sub(r'### Word Example (\d)', r'### WORD_EXAMPLE_00\1', content)`. -/
def subExF (word upper : List Char) : Nat → List Char → List Char
  | 0, l => l
  | _, [] => []
  | fuel + 1, c :: cs =>
    match matchExHead word (c :: cs) with
    | some (d, rest) =>
      "### ".data ++ upper ++ "_EXAMPLE_00".data ++ [d] ++ subExF word upper fuel rest
    | none => c :: subExF word upper fuel cs

/-- `str.replace(pat, rep)`: replace every non-overlapping occurrence,
left to right (fuel-based; `pat` is non-empty at every call site). -/
def replAllF (pat rep : List Char) : Nat → List Char → List Char
  | 0, l => l
  | _, [] => []
  | fuel + 1, c :: cs =>
    if listPref pat (c :: cs) then rep ++ replAllF pat rep fuel ((c :: cs).drop pat.length)
    else c :: replAllF pat rep fuel cs

/-- Index of the first match of `re.search(r'\n### (?!MUST_FOLLOW)', content)`
(validate-rule.py line 222). -/
def findNextSectionIdx : List Char → Option Nat
  | [] => none
  | c :: rest =>
    if listPref "\n### ".data (c :: rest) &&
       !listPref "MUST_FOLLOW".data ((c :: rest).drop 5) then some 0
    else (findNextSectionIdx rest).map (· + 1)

/-- The extraction-marker insertion step of `fix_common_issues`
(validate-rule.py lines 216-224): only when the document has a
`## MUST_FOLLOW` heading and no `<!-- EXTRACT:requirements:start -->` marker;
then the start marker is spliced after every `### MUST_FOLLOW` line and the
end marker before the first following `\n### ` heading other than
MUST_FOLLOW. -/
def insertMarkersFix (content : List Char) : List Char :=
  if containsS content "## MUST_FOLLOW".data &&
     !containsS content "<!-- EXTRACT:requirements:start -->".data then
    let c1 := replAllF "### MUST_FOLLOW\n".data
      "### MUST_FOLLOW\n<!-- EXTRACT:requirements:start -->\n".data content.length content
    match findNextSectionIdx c1 with
    | some i => c1.take i ++ "<!-- EXTRACT:requirements:end -->\n".data ++ c1.drop i
    | none => c1
  else content

/-- `RuleValidator.fix_common_issues` (validate-rule.py lines 200-229) at the
content level: the pipeline of the six regex substitutions followed by the
marker insertion.  The function returns the written-back content together
with the boolean result (`True` iff the content changed; on `False` nothing
is written, so the pair's first component is the on-disk content either
way). -/
def fix_common_issues (content : List Char) : List Char × Bool :=
  let c1 := subShortF "REQ".data content.length content
  let c2 := subTwoF "REQ".data c1.length c1
  let c3 := subShortF "ANT".data c2.length c2
  let c4 := subTwoF "ANT".data c3.length c3
  let c5 := subExF "Good".data "GOOD".data c4.length c4
  let c6 := subExF "Bad".data "BAD".data c5.length c5
  let c7 := insertMarkersFix c6
  (c7, decide (c7 ≠ content))

/-! ## Differ (rule-diff.py) -/

/-- A requirement record as produced by `RuleExtractor.extract_requirements`
(extract-rule-section.py lines 70-87).  The differ compares whole records by
Python `!=`, which is field-wise equality. -/
structure ReqRec where
  id : List Char
  requirement : List Char
  rationale : Option (List Char)
  impact : Option (List Char)
deriving DecidableEq

/-- An antipattern record (`extract_antipatterns`, lines 89-106). -/
structure AntRec where
  id : List Char
  antipattern : List Char
  why : Option (List Char)
  instead : Option (List Char)
deriving DecidableEq

/-- First-binding association lookup. -/
def lookupA {α : Type} : List (List Char × α) → List Char → Option α
  | [], _ => none
  | (k, v) :: rest, key => if k = key then some v else lookupA rest key

/-- Dict insertion: overwrite in place or append (used to model
`{r['id']: r for r in reqs}`, where a duplicated id keeps the first position
and the last value). -/
def dictIns {α : Type} : List (List Char × α) → List Char → α → List (List Char × α)
  | [], key, v => [(key, v)]
  | (k, w) :: rest, key, v =>
    if k = key then (k, v) :: rest else (k, w) :: dictIns rest key v

/-- `{r['id']: r for r in rs}`. -/
def byId {α : Type} (idOf : α → List Char) (rs : List α) : List (List Char × α) :=
  rs.foldl (fun m r => dictIns m (idOf r) r) []

/-- Iteration order used for `set(d1.keys()) | set(d2.keys())`.  Python set
iteration order is unspecified; the model fixes the order (keys of the first
dict, then new keys of the second), which does not affect any claim below
(they are about emptiness and membership of the resulting collections). -/
def unionKeys {α : Type} (d1 d2 : List (List Char × α)) : List (List Char) :=
  d1.map Prod.fst ++ (d2.map Prod.fst).filter (fun k => !(d1.map Prod.fst).contains k)

/-- `RuleDiffer._diff_metadata` result (rule-diff.py lines 48-69):
`added`/`removed` map keys to values; `modified` maps keys to (old, new). -/
structure MetaChanges where
  added : List (List Char × Json)
  removed : List (List Char × Json)
  modified : List (List Char × Json × Json)

/-- `set(meta1.keys()) | set(meta2.keys())` for two metadata dicts (fixed
iteration order; see `unionKeys`). -/
def unionKeysO (m1 m2 : JObj) : List (List Char) :=
  m1.keys ++ m2.keys.filter (fun k => !m1.keys.contains k)

/-- `RuleDiffer._diff_metadata` (rule-diff.py lines 48-69). -/
def diff_metadata (m1 m2 : JObj) : MetaChanges :=
  (unionKeysO m1 m2).foldl
    (fun acc key =>
      match m1.lookup key, m2.lookup key with
      | none, some v => { acc with added := acc.added ++ [(key, v)] }
      | some v, none => { acc with removed := acc.removed ++ [(key, v)] }
      | some v1, some v2 =>
        if jeq v1 v2 then acc
        else { acc with modified := acc.modified ++ [(key, v1, v2)] }
      | none, none => acc)
    ⟨[], [], []⟩

/-- Keyed record-diff result (requirements and antipatterns,
rule-diff.py lines 71-126).  The Python `modified` entries for requirements
also carry a `SequenceMatcher` similarity ratio; that float plays no role in
any claim and is omitted from the record (the old/new payloads are kept). -/
structure RecChanges (α : Type) where
  added : List α
  removed : List α
  modified : List (List Char × α × α)

/-- The shared keyed set-difference scheme of `_diff_requirements` and
`_diff_antipatterns`. -/
def diffKeyed {α : Type} [DecidableEq α] (idOf : α → List Char) (rs1 rs2 : List α) :
    RecChanges α :=
  let d1 := byId idOf rs1
  let d2 := byId idOf rs2
  (unionKeys d1 d2).foldl
    (fun acc key =>
      match lookupA d1 key, lookupA d2 key with
      | none, some v => { acc with added := acc.added ++ [v] }
      | some v, none => { acc with removed := acc.removed ++ [v] }
      | some v1, some v2 =>
        if v1 = v2 then acc
        else { acc with modified := acc.modified ++ [(key, v1, v2)] }
      | none, none => acc)
    ⟨[], [], []⟩

/-- `RuleDiffer._diff_requirements` (rule-diff.py lines 71-100). -/
def diff_requirements (rs1 rs2 : List ReqRec) : RecChanges ReqRec :=
  diffKeyed ReqRec.id rs1 rs2

/-- `RuleDiffer._diff_antipatterns` (rule-diff.py lines 102-126). -/
def diff_antipatterns (as1 as2 : List AntRec) : RecChanges AntRec :=
  diffKeyed AntRec.id as1 as2

/-- Python `str(x)` for the metadata values interpolated into the
breaking-change f-strings (`meta.get(...)` results): `None` for a missing key
or YAML null, the bare text for strings, `True`/`False` for booleans, digits
for ints.  Lists and dicts are rendered via their JSON serialization; Python
`str` would use `repr` quoting instead, but no claim exercises a non-scalar
severity or language. -/
def pyStr : Option Json → List Char
  | none => "None".data
  | some .null => "None".data
  | some (.bool b) => if b then "True".data else "False".data
  | some (.str s) => s
  | some (.num n) => intRepr n
  | some (.arr l) => dumpsJ (.arr l)
  | some (.obj o) => dumpsJ (.obj o)

/-- The summary record of `RuleDiffer._generate_summary`. -/
structure DiffSummary where
  severity_changed : Bool
  category_changed : Bool
  language_changed : Bool
  breaking_changes : List (List Char)
deriving DecidableEq

/-- Option-level Python `!=` on `meta.get(key)` results. -/
def optNe : Option Json → Option Json → Bool
  | none, none => false
  | some a, some b => !jeq a b
  | _, _ => true

/-- The severity breaking-change string (rule-diff.py lines 163-165). -/
def sevMsg (m1 m2 : JObj) : List Char :=
  "Severity changed from ".data ++ pyStr (m1.lookup "severity".data) ++
    " to ".data ++ pyStr (m2.lookup "severity".data)

/-- The language breaking-change string (rule-diff.py lines 172-174). -/
def langMsg (m1 m2 : JObj) : List Char :=
  "Language changed from ".data ++ pyStr (m1.lookup "language".data) ++
    " to ".data ++ pyStr (m2.lookup "language".data)

/-- `RuleDiffer._generate_summary` (rule-diff.py lines 149-176), written as
the same sequence of three conditional updates as the source. -/
def generate_summary (m1 m2 : JObj) : DiffSummary :=
  let s0 : DiffSummary := ⟨false, false, false, []⟩
  let s1 :=
    if optNe (m1.lookup "severity".data) (m2.lookup "severity".data) then
      { s0 with severity_changed := true, breaking_changes := s0.breaking_changes ++ [sevMsg m1 m2] }
    else s0
  let s2 :=
    if optNe (m1.lookup "category".data) (m2.lookup "category".data) then
      { s1 with category_changed := true }
    else s1
  if optNe (m1.lookup "language".data) (m2.lookup "language".data) then
    { s2 with language_changed := true, breaking_changes := s2.breaking_changes ++ [langMsg m1 m2] }
  else s2

/-! ### `RuleDiffer._calculate_rule_similarity` (rule-diff.py lines 213-237) -/

/-- Python `str.split()`: maximal runs of non-whitespace characters. -/
def splitWSAux : List Char → List Char → List (List Char)
  | cur, [] => if cur.isEmpty then [] else [cur.reverse]
  | cur, c :: rest =>
    if isWS c then
      if cur.isEmpty then splitWSAux [] rest else cur.reverse :: splitWSAux [] rest
    else splitWSAux (c :: cur) rest

/-- `' '.join(texts)`. -/
def joinSpace : List (List Char) → List Char
  | [] => []
  | [x] => x
  | x :: y :: rest => x ++ ' ' :: joinSpace (y :: rest)

/-- `set(' '.join(reqs).lower().split())`: the lowercase word set of a rule's
requirement texts (a Python set, modelled as a `Finset`). -/
def wordSet (reqs : List (List Char)) : Finset (List Char) :=
  (splitWSAux [] (lowerL (joinSpace reqs))).toFinset

/-- The Jaccard computation of `_calculate_rule_similarity`
(rule-diff.py lines 225-235), on the two rules' extracted requirement texts.
Python computes the quotient in floating point; the model uses `ℚ` (both
agree that the value lies in `[0, 1]`, the only property at issue). -/
def jaccardReqWords (r1 r2 : List (List Char)) : ℚ :=
  let s1 := wordSet r1
  let s2 := wordSet r2
  if s1 = ∅ ∧ s2 = ∅ then 0
  else
    let inter := (s1 ∩ s2).card
    let uni := (s1 ∪ s2).card
    if 0 < uni then (inter : ℚ) / (uni : ℚ) else 0

/-- `RuleDiffer._calculate_rule_similarity` (rule-diff.py lines 213-237).
The two arguments stand for each rule's extracted requirement texts;
`none` models the `except:` arm (unreadable file, bad YAML front matter, or
any other exception while extracting), which returns `0.0`. -/
def calculate_rule_similarity :
    Option (List (List Char)) → Option (List (List Char)) → ℚ
  | some r1, some r2 => jaccardReqWords r1 r2
  | _, _ => 0

/-- Helper to write concrete JSON objects. -/
def jo : List (List Char × Json) → JObj :=
  fun l => l.foldr (fun p acc => .cons p.1 p.2 acc) .nil

/-- Helper to write concrete JSON arrays. -/
def ja : List Json → JList :=
  fun l => l.foldr .cons .nil

/-! ## Auxiliary predicates and concrete inputs used by the theorems below -/

/-- No line start of `b` (given the incoming line-start flag) begins with
`##`: the condition under which the capture `capUpto` keeps all of `b`. -/
def noHH : Bool → List Char → Bool
  | _, [] => true
  | atStart, c :: rest =>
    !(atStart && listPref ['#', '#'] (c :: rest)) && noHH (c == '\n') rest

/-- The line-start flag after scanning `b` (starting from flag `s`). -/
def flagAfter : Bool → List Char → Bool
  | s, [] => s
  | _, c :: rest => flagAfter (c == '\n') rest

/-- `[s, s+1, ..., s+k-1]`: a gap-free run of consecutive IDs. -/
def consecFrom : Nat → Nat → List Nat
  | _, 0 => []
  | s, k + 1 => s :: consecFrom (s + 1) k

/-- No position of the document matches the one-digit ID pattern
`**[TAGd]**`. -/
def noShortId (tag : List Char) : List Char → Bool
  | [] => true
  | c :: cs => (matchShortId tag (c :: cs)).isNone && noShortId tag cs

/-- No position matches the two-digit ID pattern `**[TAGdd]**`. -/
def noTwoId (tag : List Char) : List Char → Bool
  | [] => true
  | c :: cs => (matchTwoId tag (c :: cs)).isNone && noTwoId tag cs

/-- No position matches the legacy example heading `### Word Example d`. -/
def noExHead (word : List Char) : List Char → Bool
  | [] => true
  | c :: cs => (matchExHead word (c :: cs)).isNone && noExHead word cs

/-- A concrete well-formed bundle (one rule with a summary, two good
examples and four antipatterns), used to exercise `optimize_bundle`. -/
def bundleCex : Json :=
  .obj (jo [("rules".data, .obj (jo [("r".data, .obj (jo
    [("metadata".data, .obj (jo [("rule_id".data, .str "r".data)])),
     ("sections".data, .obj (jo [("summary".data, .str "s".data),
       ("good_examples".data, .arr (ja [.str "ex1".data, .str "ex2".data])),
       ("antipatterns".data,
         .arr (ja [.str "a1".data, .str "a2".data, .str "a3".data, .str "a4".data]))]))]))]))])

/-- What `optimize_bundle bundleCex 0` produces: `good_examples` deleted and
`antipatterns` truncated to the first three, `summary` kept. -/
def bundleCexTrimmed : Json :=
  .obj (jo [("rules".data, .obj (jo [("r".data, .obj (jo
    [("metadata".data, .obj (jo [("rule_id".data, .str "r".data)])),
     ("sections".data, .obj (jo [("summary".data, .str "s".data),
       ("antipatterns".data,
         .arr (ja [.str "a1".data, .str "a2".data, .str "a3".data]))]))]))]))])

/-! ## Theorems -/

theorem capUpto_of_noHH : ∀ (b : List Char) (s : Bool), noHH s b = true → capUpto s b = b := by
  intro b
  induction b with
  | nil => intro s _; rfl
  | cons x xs ih =>
    intro s h
    rw [noHH, Bool.and_eq_true] at h
    have h1 : (s && listPref ['#', '#'] (x :: xs)) = false := by
      cases hb : (s && listPref ['#', '#'] (x :: xs)) with
      | false => rfl
      | true => simp [hb] at h
    simp only [capUpto]
    rw [if_neg (by simp [h1]), ih (x == '\n') h.2]

theorem capUpto_append_of_noHH : ∀ (b : List Char) (s : Bool) (c : List Char),
    noHH s b = true → flagAfter s b = true → listPref ['#', '#'] c = true →
    capUpto s (b ++ c) = b := by
  intro b
  induction b with
  | nil =>
    intro s c _ hf hc
    cases c with
    | nil => simp [listPref] at hc
    | cons y ys =>
      have hs : s = true := hf
      subst hs
      simp only [List.nil_append, capUpto]
      rw [if_pos (by simp [hc])]
  | cons x xs ih =>
    intro s c h hf hc
    rw [noHH, Bool.and_eq_true] at h
    simp only [flagAfter] at hf
    have h1 : (s && listPref ['#', '#'] (x :: xs)) = false := by
      cases hb : (s && listPref ['#', '#'] (x :: xs)) with
      | false => rfl
      | true => simp [hb] at h
    have h2 : (s && listPref ['#', '#'] (x :: (xs ++ c))) = false := by
      cases s with
      | false => rfl
      | true =>
        simp only [Bool.true_and] at h1 ⊢
        cases xs with
        | nil =>
          have hx : x = '\n' := by simpa [flagAfter] using hf
          subst hx
          simp [listPref]
        | cons y ys =>
          have e : ∀ l : List Char, listPref ['#', '#'] (x :: y :: l) =
              (('#' == x) && ('#' == y)) := by
            intro l
            simp [listPref]
          simp only [List.cons_append]
          rw [e] at h1
          rw [e]
          exact h1
    simp only [List.cons_append, capUpto]
    rw [if_neg (by simp [h2])]
    exact congrArg (List.cons x) (ih (x == '\n') c h.2 hf hc)

/-- C1: for a document of the form `a ++ start-marker ++ b ++ end-marker ++ c`
in which the start marker first occurs at position `|a|` and the end marker
first occurs right after `b`, `extract_section` returns exactly `b` stripped
of surrounding whitespace — independently of any heading structure in `a`,
`b` or `c` (the witness instantiates `a` with a heading-delimited section of
the same name). -/
theorem C1_marker_extraction (name a b c : List Char)
    (h1 : firstOcc (startMarker name)
      (a ++ startMarker name ++ b ++ endMarker name ++ c) = some a.length)
    (h2 : firstOcc (endMarker name) (b ++ endMarker name ++ c) = some b.length) :
    extract_section name (a ++ startMarker name ++ b ++ endMarker name ++ c) =
      some (pyStrip b) := by
  have hassoc : a ++ startMarker name ++ b ++ endMarker name ++ c =
      (a ++ startMarker name) ++ (b ++ endMarker name ++ c) := by
    simp
  have hd : (a ++ startMarker name ++ b ++ endMarker name ++ c).drop
      (a.length + (startMarker name).length) = b ++ endMarker name ++ c := by
    rw [hassoc, ← List.length_append]
    exact List.drop_left _ _
  have ht : (b ++ endMarker name ++ c).take b.length = b := by
    rw [List.append_assoc]
    exact List.take_left _ _
  have hm : markerExtract name (a ++ startMarker name ++ b ++ endMarker name ++ c) =
      some (pyStrip b) := by
    unfold markerExtract
    rw [h1]
    simp only [hd, h2, ht]
  unfold extract_section
  rw [hm]

theorem C1_marker_extraction_witness :
    extract_section "x".data
      ("## X\nheadstuff\n".data ++ startMarker "x".data ++ " marked \n".data ++
        endMarker "x".data ++ "tail".data) = some (pyStrip " marked \n".data) :=
  C1_marker_extraction "x".data "## X\nheadstuff\n".data " marked \n".data "tail".data
    (by decide) (by decide)

/-- C2 counterexample: in a marker-free document with `## REQUIREMENTS`
followed by a `###` sub-heading, the capture stops at the sub-heading
(the lookahead `^##` also matches the first two characters of `###`), so
`extract_section "requirements"` returns only the text before `### SUB` —
not, as the claim states, everything up to the next `##` top-level heading
or end of document. -/
theorem C2_heading_counterexample :
    extract_section "requirements".data "## REQUIREMENTS\nline1\n### SUB\nline2\n".data =
      some "line1".data ∧
    extract_section "requirements".data "## REQUIREMENTS\nline1\n### SUB\nline2\n".data ≠
      some (pyStrip "line1\n### SUB\nline2\n".data) := by
  constructor
  · decide
  · decide

/-- C2 (amended): for a document with no extraction markers for the name,
whose first line-start occurrence of the heading `## <UPPER-NAME>` is
followed by `b ++ c`, where no line of `b` begins with `##` and `c` is
either empty (end of document) or starts a line beginning with `##`
(this includes `###` sub-headings), `extract_section` returns `b`
stripped of surrounding whitespace.  This is the claim with its final
clause corrected: a `###` sub-heading DOES terminate the captured text,
because the code's lookahead `^##` matches there too. -/
theorem C2_heading_extraction (name doc b c : List Char)
    (h1 : firstOcc (startMarker name) doc = none)
    (h2 : headingRest (headingOf (upperName name)) true doc = some (b ++ c))
    (h3 : noHH true b = true)
    (h4 : c = [] ∨ (listPref ['#', '#'] c = true ∧ flagAfter true b = true)) :
    extract_section name doc = some (pyStrip b) := by
  have hm : markerExtract name doc = none := by
    unfold markerExtract
    rw [h1]
  have hcap : capUpto true (b ++ c) = b := by
    rcases h4 with hc | ⟨hc, hf⟩
    · subst hc
      rw [List.append_nil]
      exact capUpto_of_noHH b true h3
    · exact capUpto_append_of_noHH b true c h3 hf hc
  have hh : headingExtract (upperName name) doc = some (pyStrip b) := by
    unfold headingExtract
    rw [h2]
    show some (pyStrip (capUpto true (b ++ c))) = some (pyStrip b)
    rw [hcap]
  unfold extract_section
  rw [hm, hh]

theorem C2_heading_extraction_witness :
    extract_section "requirements".data "## REQUIREMENTS\nline1\nline2\n## NEXT\nx".data =
      some (pyStrip "line1\nline2\n".data) :=
  C2_heading_extraction "requirements".data
    "## REQUIREMENTS\nline1\nline2\n## NEXT\nx".data
    "line1\nline2\n".data "## NEXT\nx".data
    (by decide) (by decide) (by decide) (Or.inr ⟨by decide, by decide⟩)

/-- C3 counterexample: optimizing `bundleCex` against a 0-token budget trims
it, and — because `optimized = bundle.copy()` is a shallow copy whose nested
`sections` dicts are shared — the caller's bundle after the call equals the
trimmed bundle (second pair component), which differs from the original:
the per-rule sections mappings are NOT left as they were before the call. -/
theorem C3_optimize_mutates_counterexample :
    optimize_bundle bundleCex 0 = some (bundleCexTrimmed, bundleCexTrimmed) ∧
    bundleCexTrimmed ≠ bundleCex := by
  constructor
  · rfl
  · intro h
    exact absurd (congrArg dumpsJ h) (by decide)

/-- C3 (amended): `optimize_bundle` returns the original bundle unmodified
(and untouched) when its token estimate is already within `max_tokens`;
when the bundle is over budget the returned bundle is trimmed, and the
shallow `bundle.copy()` makes every trim write through to the caller's
nested section dicts, so the caller's bundle after the call (second pair
component) always coincides with the returned bundle rather than with its
own pre-call value. -/
theorem C3_optimize_frame (b : Json) (m : Int) :
    ((estimate_tokens b : Int) ≤ m → optimize_bundle b m = some (b, b)) ∧
    (∀ r post, optimize_bundle b m = some (r, post) → post = r) := by
  constructor
  · intro h
    unfold optimize_bundle optimize_core
    rw [if_pos h]
    rfl
  · intro r post h
    unfold optimize_bundle at h
    cases hc : optimize_core b m with
    | none => rw [hc] at h; exact absurd h (by simp)
    | some x =>
      rw [hc] at h
      simp only [Option.map_some'] at h
      obtain ⟨h1, h2⟩ := Prod.mk.injEq .. ▸ (Option.some.injEq .. ▸ h)
      rw [← h1, ← h2]

theorem C3_optimize_frame_witness :
    optimize_bundle bundleCex 1000 = some (bundleCex, bundleCex) :=
  (C3_optimize_frame bundleCex 1000).1 (by decide)

/-- C4: the task `"review typescript code for testing issues"` is classified
with action `review`; `typescript` is among the detected languages and
`test-naming` among the detected categories; and the section list selected
for extraction is exactly `[RULE_SUMMARY, MUST_NOT_DO, antipatterns]`
(these are the classification and section-selection steps `bundle_for_task`
delegates to). -/
theorem C4_review_typescript_classification :
    (analyze_task "review typescript code for testing issues".data).action = "review".data ∧
    "typescript".data ∈ (analyze_task "review typescript code for testing issues".data).languages ∧
    "test-naming".data ∈ (analyze_task "review typescript code for testing issues".data).categories ∧
    determine_sections_for_task "review typescript code for testing issues".data =
      ["RULE_SUMMARY".data, "MUST_NOT_DO".data, "antipatterns".data] := by
  refine ⟨by decide, by decide, by decide, by decide⟩

theorem seqGap_consecFrom : ∀ (k s : Nat) (l : List Nat),
    seqGap (consecFrom s k ++ l) s = seqGap l (s + k) := by
  intro k
  induction k with
  | zero => intro s l; simp [consecFrom]
  | succ k ih =>
    intro s l
    simp only [consecFrom, List.cons_append, seqGap]
    rw [if_neg (by simp)]
    exact (ih (s + 1) l).trans (by congr 1; omega)

theorem check_seq_gap (nums : List Nat) (pfx : List Char) (k n : Nat) (rest : List Nat)
    (h : sortNat nums = consecFrom 1 k ++ n :: rest) (hn : n ≠ k + 1) :
    check_sequential_ids nums pfx = [seqWarning pfx (k + 1) n] := by
  have hE : nums.isEmpty = false := by
    cases nums with
    | nil => rw [show sortNat ([] : List Nat) = [] from rfl] at h; exact absurd h.symm (by simp)
    | cons a as => rfl
  unfold check_sequential_ids
  rw [hE]
  simp only [Bool.false_eq_true, if_false]
  rw [h, seqGap_consecFrom]
  simp only [seqGap]
  rw [if_pos (by omega)]
  rw [show 1 + k = k + 1 from Nat.add_comm 1 k]

theorem check_seq_nogap (nums : List Nat) (pfx : List Char)
    (h : seqGap (sortNat nums) 1 = none) : check_sequential_ids nums pfx = [] := by
  unfold check_sequential_ids
  cases hE : nums.isEmpty with
  | true => rfl
  | false =>
    simp only [Bool.false_eq_true, if_false]
    rw [h]

/-- C5: for every document whose sorted REQ numbers form a gap-free run
`1..k` followed by a first out-of-sequence number `n ≠ k+1` (anything may
follow it, so later gaps in the family are covered), the REQ family
contributes exactly one sequencing warning, citing the first expected
missing id `k+1`; the full warning list is that single REQ warning followed
by whatever the ANT family independently produces under the same rule —
nothing when the document has no ANT ids at all (the claim's example),
nothing when the sorted ANT numbers are exactly the gap-free run `1..m`,
and exactly one warning citing the ANT family's own first expected missing
id when its sorted numbers have a first mismatch. -/
theorem C5_one_gap_warning_per_family (doc : List Char) (k n : Nat) (rest : List Nat)
    (hreq : sortNat (reqNums doc) = consecFrom 1 k ++ n :: rest)
    (hreqGap : n ≠ k + 1) :
    check_sequential_ids (reqNums doc) "REQ".data = [seqWarning "REQ".data (k + 1) n] ∧
    idSequencingWarnings doc =
      seqWarning "REQ".data (k + 1) n :: check_sequential_ids (antNums doc) "ANT".data ∧
    (antNums doc = [] → idSequencingWarnings doc = [seqWarning "REQ".data (k + 1) n]) ∧
    (∀ m : Nat, sortNat (antNums doc) = consecFrom 1 m →
      idSequencingWarnings doc = [seqWarning "REQ".data (k + 1) n]) ∧
    (∀ (k2 n2 : Nat) (rest2 : List Nat),
      sortNat (antNums doc) = consecFrom 1 k2 ++ n2 :: rest2 → n2 ≠ k2 + 1 →
      idSequencingWarnings doc =
        [seqWarning "REQ".data (k + 1) n, seqWarning "ANT".data (k2 + 1) n2]) := by
  have hreqW : check_sequential_ids (reqNums doc) "REQ".data =
      [seqWarning "REQ".data (k + 1) n] :=
    check_seq_gap (reqNums doc) "REQ".data k n rest hreq hreqGap
  refine ⟨hreqW, ?_, ?_, ?_, ?_⟩
  · unfold idSequencingWarnings
    rw [hreqW]
    rfl
  · intro ha
    unfold idSequencingWarnings
    rw [hreqW, ha]
    rfl
  · intro m hm
    have hant : check_sequential_ids (antNums doc) "ANT".data = [] := by
      apply check_seq_nogap
      rw [hm]
      have e := seqGap_consecFrom m 1 ([] : List Nat)
      rw [List.append_nil] at e
      rw [e]
      rfl
    unfold idSequencingWarnings
    rw [hreqW, hant]
    rfl
  · intro k2 n2 rest2 hant hantGap
    unfold idSequencingWarnings
    rw [hreqW, check_seq_gap (antNums doc) "ANT".data k2 n2 rest2 hant hantGap]
    rfl

theorem C5_one_gap_warning_per_family_witness :
    idSequencingWarnings "**[REQ001]** a\n**[REQ002]** b\n**[REQ004]** c".data =
      [seqWarning "REQ".data 3 4] :=
  (C5_one_gap_warning_per_family "**[REQ001]** a\n**[REQ002]** b\n**[REQ004]** c".data
    2 4 [] (by decide) (by decide)).2.2.1 (by decide)

mutual
theorem jeq_refl : ∀ j, jeq j j = true
  | .null => rfl
  | .bool b => by simp [jeq]
  | .str s => by simp [jeq]
  | .num n => by simp [jeq]
  | .arr l => by rw [jeq]; exact jleq_refl l
  | .obj o => by rw [jeq]; exact joeq_refl o
theorem jleq_refl : ∀ l, jleq l l = true
  | .nil => rfl
  | .cons x xs => by
    rw [jleq, Bool.and_eq_true]
    exact ⟨jeq_refl x, jleq_refl xs⟩
theorem joeq_refl : ∀ o, joeq o o = true
  | .nil => rfl
  | .cons k v rest => by
    rw [joeq, Bool.and_eq_true, Bool.and_eq_true]
    exact ⟨⟨by simp, jeq_refl v⟩, joeq_refl rest⟩
end

theorem foldl_fixed {α β : Type} (f : β → α → β) (b : β)
    (h : ∀ a, f b a = b) : ∀ l : List α, l.foldl f b = b := by
  intro l
  induction l with
  | nil => rfl
  | cons x xs ih => rw [List.foldl_cons, h x, ih]

/-- C6: diffing extracted rule data against itself yields empty
added/removed/modified collections for metadata, requirements and
antipatterns, and a summary with no breaking changes and all three
change flags false. -/
theorem C6_self_diff_empty (m : JObj) (rs : List ReqRec) (ants : List AntRec) :
    diff_metadata m m = ⟨[], [], []⟩ ∧
    diff_requirements rs rs = ⟨[], [], []⟩ ∧
    diff_antipatterns ants ants = ⟨[], [], []⟩ ∧
    generate_summary m m = ⟨false, false, false, []⟩ := by
  refine ⟨?_, ?_, ?_, ?_⟩
  · unfold diff_metadata
    apply foldl_fixed
    intro k
    cases hk : m.lookup k with
    | none => simp [hk]
    | some v => simp [hk, jeq_refl v]
  · unfold diff_requirements diffKeyed
    apply foldl_fixed
    intro k
    cases hk : lookupA (byId ReqRec.id rs) k with
    | none => simp [hk]
    | some v => simp [hk]
  · unfold diff_antipatterns diffKeyed
    apply foldl_fixed
    intro k
    cases hk : lookupA (byId AntRec.id ants) k with
    | none => simp [hk]
    | some v => simp [hk]
  · unfold generate_summary
    have hne : ∀ key : List Char, optNe (m.lookup key) (m.lookup key) = false := by
      intro key
      cases hk : m.lookup key with
      | none => rfl
      | some v => simp [optNe, jeq_refl v]
    simp [hne]

/-- C7: the diff summary's `breaking_changes` list contains exactly one
string for a severity change and exactly one for a language change and
nothing else — a category change only sets `category_changed` — and, at the
claim's concrete instance, diffing metadata with severity `error` against
otherwise-identical metadata with severity `warning` yields
`severity_changed = true` and exactly the one breaking-change string
`"Severity changed from error to warning"`. -/
theorem C7_breaking_changes :
    (∀ m1 m2 : JObj,
      (generate_summary m1 m2).severity_changed =
        optNe (m1.lookup "severity".data) (m2.lookup "severity".data) ∧
      (generate_summary m1 m2).category_changed =
        optNe (m1.lookup "category".data) (m2.lookup "category".data) ∧
      (generate_summary m1 m2).language_changed =
        optNe (m1.lookup "language".data) (m2.lookup "language".data) ∧
      (generate_summary m1 m2).breaking_changes =
        (if optNe (m1.lookup "severity".data) (m2.lookup "severity".data)
          then [sevMsg m1 m2] else []) ++
        (if optNe (m1.lookup "language".data) (m2.lookup "language".data)
          then [langMsg m1 m2] else [])) ∧
    generate_summary
      (jo [("severity".data, .str "error".data), ("category".data, .str "testing".data),
        ("language".data, .str "typescript".data)])
      (jo [("severity".data, .str "warning".data), ("category".data, .str "testing".data),
        ("language".data, .str "typescript".data)]) =
      ⟨true, false, false, ["Severity changed from error to warning".data]⟩ := by
  constructor
  · intro m1 m2
    unfold generate_summary
    cases h1 : optNe (m1.lookup "severity".data) (m2.lookup "severity".data) <;>
      cases h2 : optNe (m1.lookup "category".data) (m2.lookup "category".data) <;>
        cases h3 : optNe (m1.lookup "language".data) (m2.lookup "language".data) <;>
          simp [h1, h2, h3]
  · decide

theorem subShortF_id (tag : List Char) : ∀ (fuel : Nat) (l : List Char),
    noShortId tag l = true → subShortF tag fuel l = l := by
  intro fuel
  induction fuel with
  | zero => intro l _; cases l <;> simp [subShortF]
  | succ f ih =>
    intro l h
    cases l with
    | nil => rfl
    | cons c cs =>
      rw [noShortId, Bool.and_eq_true, Option.isNone_iff_eq_none] at h
      rw [subShortF, h.1, ih cs h.2]

theorem subTwoF_id (tag : List Char) : ∀ (fuel : Nat) (l : List Char),
    noTwoId tag l = true → subTwoF tag fuel l = l := by
  intro fuel
  induction fuel with
  | zero => intro l _; cases l <;> simp [subTwoF]
  | succ f ih =>
    intro l h
    cases l with
    | nil => rfl
    | cons c cs =>
      rw [noTwoId, Bool.and_eq_true, Option.isNone_iff_eq_none] at h
      rw [subTwoF, h.1, ih cs h.2]

theorem subExF_id (word upper : List Char) : ∀ (fuel : Nat) (l : List Char),
    noExHead word l = true → subExF word upper fuel l = l := by
  intro fuel
  induction fuel with
  | zero => intro l _; cases l <;> simp [subExF]
  | succ f ih =>
    intro l h
    cases l with
    | nil => rfl
    | cons c cs =>
      rw [noExHead, Bool.and_eq_true, Option.isNone_iff_eq_none] at h
      rw [subExF, h.1, ih cs h.2]

theorem insertMarkersFix_id (content : List Char)
    (h : containsS content "## MUST_FOLLOW".data = false ∨
      containsS content "<!-- EXTRACT:requirements:start -->".data = true) :
    insertMarkersFix content = content := by
  unfold insertMarkersFix
  rcases h with h | h
  · rw [if_neg (by simp [h])]
  · rw [if_neg (by simp [h])]

/-- C8: on an already-conformant document — no single- or double-digit
`**[REQ..]**`/`**[ANT..]**` ids anywhere, no legacy `### Good Example d` /
`### Bad Example d` headings, and either no `## MUST_FOLLOW` heading or the
`<!-- EXTRACT:requirements:start -->` marker already present —
`fix_common_issues` is a no-op: it returns `false` and the content written
back is byte-for-byte the original. -/
theorem C8_fix_noop (content : List Char)
    (h1 : noShortId "REQ".data content = true) (h2 : noTwoId "REQ".data content = true)
    (h3 : noShortId "ANT".data content = true) (h4 : noTwoId "ANT".data content = true)
    (h5 : noExHead "Good".data content = true) (h6 : noExHead "Bad".data content = true)
    (h7 : containsS content "## MUST_FOLLOW".data = false ∨
      containsS content "<!-- EXTRACT:requirements:start -->".data = true) :
    fix_common_issues content = (content, false) := by
  have e1 : subShortF "REQ".data content.length content = content :=
    subShortF_id "REQ".data content.length content h1
  have e2 : subTwoF "REQ".data content.length content = content :=
    subTwoF_id "REQ".data content.length content h2
  have e3 : subShortF "ANT".data content.length content = content :=
    subShortF_id "ANT".data content.length content h3
  have e4 : subTwoF "ANT".data content.length content = content :=
    subTwoF_id "ANT".data content.length content h4
  have e5 : subExF "Good".data "GOOD".data content.length content = content :=
    subExF_id "Good".data "GOOD".data content.length content h5
  have e6 : subExF "Bad".data "BAD".data content.length content = content :=
    subExF_id "Bad".data "BAD".data content.length content h6
  have e7 : insertMarkersFix content = content := insertMarkersFix_id content h7
  simp only [fix_common_issues]
  rw [e1, e2, e3, e4, e5, e6, e7]
  simp

theorem C8_fix_noop_witness :
    fix_common_issues
      "## MUST_FOLLOW\n<!-- EXTRACT:requirements:start -->\n1. **[REQ001]** Do it.\n<!-- EXTRACT:requirements:end -->\n### GOOD_EXAMPLE_001: t\n".data =
      ("## MUST_FOLLOW\n<!-- EXTRACT:requirements:start -->\n1. **[REQ001]** Do it.\n<!-- EXTRACT:requirements:end -->\n### GOOD_EXAMPLE_001: t\n".data, false) :=
  C8_fix_noop _ (by decide) (by decide) (by decide) (by decide) (by decide) (by decide)
    (Or.inr (by decide))

theorem JObj.lookup_set : ∀ (d : JObj) (k : List Char) (v : Json) (k2 : List Char),
    (d.set k v).lookup k2 = if k2 = k then some v else d.lookup k2
  | .nil, k, v, k2 => by
    by_cases h : k = k2
    · subst h; simp [JObj.set, JObj.lookup]
    · have h2 : ¬k2 = k := fun e => h e.symm
      simp [JObj.set, JObj.lookup, h, h2]
  | .cons a w rest, k, v, k2 => by
    by_cases hak : a = k
    · subst hak
      by_cases h : a = k2
      · subst h; simp [JObj.set, JObj.lookup]
      · have h2 : ¬k2 = a := fun e => h e.symm
        simp [JObj.set, JObj.lookup, h, h2]
    · by_cases h : a = k2
      · subst h
        simp [JObj.set, JObj.lookup, hak]
      · simp [JObj.set, JObj.lookup, hak, h, JObj.lookup_set rest k v k2]

theorem JObj.keys_set_sub : ∀ (d : JObj) (k : List Char) (v : Json) (k2 : List Char),
    k2 ∈ (d.set k v).keys → k2 = k ∨ k2 ∈ d.keys
  | .nil, k, v, k2 => by
    intro h
    simp [JObj.set, JObj.keys] at h
    exact Or.inl h
  | .cons a w rest, k, v, k2 => by
    intro h
    by_cases hak : a = k
    · subst hak
      simp only [JObj.set, if_pos rfl, JObj.keys] at h
      exact Or.inr h
    · simp only [JObj.set, if_neg hak, JObj.keys, List.mem_cons] at h
      rcases h with h | h
      · exact Or.inr (by simp [JObj.keys, h])
      · rcases JObj.keys_set_sub rest k v k2 h with h2 | h2
        · exact Or.inl h2
        · exact Or.inr (by simp [JObj.keys, h2])

/-- Key-allowedness Boolean for the C9 invariant. -/
theorem keysOK_set (d : JObj) (k : List Char) (v : Json)
    (hall : (d.keys.all (fun x => allowedSectionKeys.contains x)) = true)
    (hk : allowedSectionKeys.contains k = true) :
    ((d.set k v).keys.all (fun x => allowedSectionKeys.contains x)) = true := by
  rw [List.all_eq_true] at hall ⊢
  intro x hx
  rcases JObj.keys_set_sub d k v x hx with h | h
  · subst h; exact hk
  · exact hall x h

theorem jlist_take_one_le : ∀ l : JList, (JList.take 1 l).length ≤ 1 := by
  intro l
  cases l with
  | nil => simp [JList.take, JList.length]
  | cons x xs => simp [JList.take, JList.length]

theorem goodEx_set_other (d : JObj) (k : List Char) (v : Json)
    (hne : k ≠ "good_examples".data)
    (h : goodExAtMostOne d = true) : goodExAtMostOne (d.set k v) = true := by
  unfold goodExAtMostOne at h ⊢
  rw [JObj.lookup_set, if_neg (fun e => hne e.symm)]
  exact h

theorem sectionStep_preserves (ex : Extracted) (acc : JObj) (sec : List Char)
    (h1 : (acc.keys.all (fun x => allowedSectionKeys.contains x)) = true)
    (h2 : goodExAtMostOne acc = true) :
    (((sectionStep ex acc sec).keys.all (fun x => allowedSectionKeys.contains x)) = true) ∧
      goodExAtMostOne (sectionStep ex acc sec) = true := by
  unfold sectionStep
  split
  · exact ⟨keysOK_set _ _ _ h1 (by decide), goodEx_set_other _ _ _ (by decide) h2⟩
  · split
    · exact ⟨keysOK_set _ _ _ h1 (by decide), goodEx_set_other _ _ _ (by decide) h2⟩
    · split
      · exact ⟨keysOK_set _ _ _ h1 (by decide), goodEx_set_other _ _ _ (by decide) h2⟩
      · split
        · refine ⟨keysOK_set _ _ _ h1 (by decide), ?_⟩
          unfold goodExAtMostOne
          rw [JObj.lookup_set, if_pos rfl]
          exact decide_eq_true (jlist_take_one_le ex.goodExamples)
        · split
          · exact ⟨keysOK_set _ _ _ h1 (by decide), goodEx_set_other _ _ _ (by decide) h2⟩
          · exact ⟨h1, h2⟩

theorem buildFold_preserves (ex : Extracted) : ∀ (names : List (List Char)) (acc : JObj),
    (acc.keys.all (fun x => allowedSectionKeys.contains x)) = true →
    goodExAtMostOne acc = true →
    ((names.foldl (sectionStep ex) acc).keys.all
      (fun x => allowedSectionKeys.contains x)) = true ∧
      goodExAtMostOne (names.foldl (sectionStep ex) acc) = true := by
  intro names
  induction names with
  | nil => intro acc h1 h2; exact ⟨h1, h2⟩
  | cons sec rest ih =>
    intro acc h1 h2
    rw [List.foldl_cons]
    obtain ⟨g1, g2⟩ := sectionStep_preserves ex acc sec h1 h2
    exact ih (sectionStep ex acc sec) g1 g2

theorem sectionStep_unrecognized (ex : Extracted) (acc : JObj) (sec : List Char)
    (h : recognizedName sec = false) : sectionStep ex acc sec = acc := by
  simp only [recognizedName, Bool.or_eq_false_iff, decide_eq_false_iff_not] at h
  obtain ⟨⟨⟨⟨⟨⟨n1, n2⟩, n3⟩, n4⟩, n5⟩, n6⟩, n7⟩ := h
  simp [sectionStep, n1, n2, n3, n4, n5, n6, n7]

theorem buildFold_filter (ex : Extracted) : ∀ (names : List (List Char)) (acc : JObj),
    (names.filter recognizedName).foldl (sectionStep ex) acc =
      names.foldl (sectionStep ex) acc := by
  intro names
  induction names with
  | nil => intro acc; rfl
  | cons sec rest ih =>
    intro acc
    cases hr : recognizedName sec with
    | true => rw [List.filter_cons_of_pos hr, List.foldl_cons, List.foldl_cons, ih]
    | false =>
      rw [List.filter_cons_of_neg (by simp [hr]), List.foldl_cons,
        sectionStep_unrecognized ex acc sec hr, ih]

/-- C9: for every extractor output and every requested-section list, the
per-rule `sections` dict built by `_build_bundle` only ever contains keys
from the fixed set `{summary, requirements, antipatterns, good_examples,
context}`; a requested name outside the recognized set is silently ignored
(filtering the request list to the recognized names builds the identical
dict, so an unrecognized name never adds a key and never fails); and the
`good_examples` entry, when present, holds at most one example. -/
theorem C9_sections_invariant (ex : Extracted) (names : List (List Char)) :
    ((buildRuleSections ex names).keys.all
      (fun x => allowedSectionKeys.contains x)) = true ∧
    goodExAtMostOne (buildRuleSections ex names) = true ∧
    buildRuleSections ex (names.filter recognizedName) = buildRuleSections ex names := by
  obtain ⟨g1, g2⟩ := buildFold_preserves ex names .nil (by decide) (by decide)
  exact ⟨g1, g2, buildFold_filter ex names .nil⟩

/-- C10: the pairwise rule similarity is total and bounded — the `except:`
arm (modelled by `none` inputs for failed extraction/IO) yields `0`, the
Jaccard division is guarded so that two empty word sets give `0` rather
than an error or `1`, and the result always lies in `[0, 1]`. -/
theorem C10_similarity_total_bounded (o1 o2 : Option (List (List Char))) :
    (0 ≤ calculate_rule_similarity o1 o2 ∧ calculate_rule_similarity o1 o2 ≤ 1) ∧
    (∀ r1 r2, o1 = some r1 → o2 = some r2 → wordSet r1 = ∅ → wordSet r2 = ∅ →
      calculate_rule_similarity o1 o2 = 0) ∧
    calculate_rule_similarity none o2 = 0 := by
  refine ⟨?_, ?_, ?_⟩
  · cases o1 with
    | none => cases o2 <;> simp [calculate_rule_similarity]
    | some r1 =>
      cases o2 with
      | none => simp [calculate_rule_similarity]
      | some r2 =>
        show 0 ≤ jaccardReqWords r1 r2 ∧ jaccardReqWords r1 r2 ≤ 1
        simp only [jaccardReqWords]
        by_cases he : wordSet r1 = ∅ ∧ wordSet r2 = ∅
        · rw [if_pos he]
          norm_num
        · rw [if_neg he]
          by_cases hu : 0 < (wordSet r1 ∪ wordSet r2).card
          · rw [if_pos hu]
            constructor
            · positivity
            · rw [div_le_one (by exact_mod_cast hu)]
              exact_mod_cast Finset.card_le_card
                (Finset.inter_subset_left.trans Finset.subset_union_left)
          · rw [if_neg hu]
            norm_num
  · intro r1 r2 h1 h2 e1 e2
    subst h1
    subst h2
    show jaccardReqWords r1 r2 = 0
    simp only [jaccardReqWords]
    rw [if_pos ⟨e1, e2⟩]
  · cases o2 <;> rfl

theorem C10_similarity_total_bounded_witness :
    calculate_rule_similarity (some []) (some []) = 0 :=
  (C10_similarity_total_bounded (some []) (some [])).2.1 [] [] rfl rfl
    (by decide) (by decide)
